import Mathlib

/- Shallow embedding of src/Python/original_line_follower_script.py.
   The motor command table, the PID update, the tiered command
   classification, the line memory and loss recovery logic of
   line_detection_thread, and the ultrasonic obstacle monitoring of
   distance_sensor_thread are translated into pure Lean functions.
   Timestamps and distances are rationals, pixel positions are
   integers, and pin writes are recorded as a list of pin-value
   pairs instead of being performed. -/

namespace LineFollower

/- GPIO pin numbers, exactly as configured at the top of the script. -/

def FL_IN1 : Nat := 5
def FL_IN2 : Nat := 6
def FR_IN1 : Nat := 19
def FR_IN2 : Nat := 26
def BL_IN1 : Nat := 16
def BL_IN2 : Nat := 20
def BR_IN1 : Nat := 13
def BR_IN2 : Nat := 21

/- Fixed configuration constants of the script. -/

def OBSTACLE_DISTANCE : ℚ := 15

def Kp : ℚ := 2 / 10
def Ki : ℚ := 0
def Kd : ℚ := 5 / 100

def line_memory_timeout : ℚ := 3
def max_line_lost_count : Nat := 20

/-- Values of the current_motor_state variable: one per motor routine plus
the two inline search actuations. -/
inductive MotorState
  | stopped
  | forward
  | backward
  | left
  | right
  | left_forward
  | right_forward
  | search_right
  | search_left
  deriving DecidableEq, Repr

/-- Pin writes issued by each motor routine, in source order.  A pair
holds the pin number and the driven level (true = high). -/
def writesFor : MotorState → List (Nat × Bool)
  | .forward =>
      [(FL_IN1, false), (FL_IN2, true), (FR_IN1, false), (FR_IN2, true),
       (BL_IN1, false), (BL_IN2, true), (BR_IN1, false), (BR_IN2, true)]
  | .backward =>
      [(FL_IN1, true), (FL_IN2, false), (FR_IN1, true), (FR_IN2, false),
       (BL_IN1, true), (BL_IN2, false), (BR_IN1, true), (BR_IN2, false)]
  | .left =>
      [(FL_IN1, true), (FL_IN2, false), (BL_IN1, true), (BL_IN2, false),
       (FR_IN1, false), (FR_IN2, true), (BR_IN1, false), (BR_IN2, true)]
  | .right =>
      [(FL_IN1, false), (FL_IN2, true), (BL_IN1, false), (BL_IN2, true),
       (FR_IN1, true), (FR_IN2, false), (BR_IN1, true), (BR_IN2, false)]
  | .left_forward =>
      [(FL_IN1, false), (FL_IN2, false), (BL_IN1, false), (BL_IN2, false),
       (FR_IN1, false), (FR_IN2, true), (BR_IN1, false), (BR_IN2, true)]
  | .right_forward =>
      [(FR_IN1, false), (FR_IN2, false), (BR_IN1, false), (BR_IN2, false),
       (FL_IN1, false), (FL_IN2, true), (BL_IN1, false), (BL_IN2, true)]
  | .stopped =>
      [(FL_IN1, false), (FL_IN2, false), (FR_IN1, false), (FR_IN2, false),
       (BL_IN1, false), (BL_IN2, false), (BR_IN1, false), (BR_IN2, false)]
  | .search_right =>
      [(FL_IN1, false), (FL_IN2, false), (BL_IN1, false), (BL_IN2, false),
       (FR_IN1, false), (FR_IN2, true), (BR_IN1, false), (BR_IN2, true)]
  | .search_left =>
      [(FR_IN1, false), (FR_IN2, false), (BR_IN1, false), (BR_IN2, false),
       (FL_IN1, false), (FL_IN2, true), (BL_IN1, false), (BL_IN2, true)]

/-- The named motor routines begin with an early return when
current_motor_state already equals the target state.  The two inline
search actuations inside line_detection_thread have no such check. -/
def hasIdemGuard : MotorState → Bool
  | .search_right => false
  | .search_left => false
  | _ => true

/-- Which routines assign the moving_backward global, and to what.
turn_left, turn_right, stop and the inline search blocks leave it
untouched. -/
def updatesBackwardFlag : MotorState → Option Bool
  | .forward => some false
  | .backward => some true
  | .left_forward => some false
  | .right_forward => some false
  | _ => none

/-- Actuator state: the current_motor_state and moving_backward globals. -/
structure ActState where
  current : MotorState
  movingBackward : Bool
  deriving DecidableEq, Repr

/-- Invoking the motor routine for command c: returns the new actuator
state and the list of pin writes performed. -/
def applyCmd (s : ActState) (c : MotorState) : ActState × List (Nat × Bool) :=
  if hasIdemGuard c = true ∧ s.current = c then (s, [])
  else (⟨c, (updatesBackwardFlag c).getD s.movingBackward⟩, writesFor c)

/-- PID controller state: the integral and prev_error locals of
line_detection_thread. -/
structure PIDState where
  integral : Int
  prevError : Int
  deriving DecidableEq, Repr

/-- One PID update: integral = max(-100, min(100, integral + error)),
derivative = error - prev_error, output = Kp*error + Ki*integral +
Kd*derivative, prev_error = error.  Returns the new state and output. -/
def pidUpdate (s : PIDState) (error : Int) : PIDState × ℚ :=
  let integral : Int := max (-100) (min 100 (s.integral + error))
  let derivative : Int := error - s.prevError
  let output : ℚ := Kp * (error : ℚ) + Ki * (integral : ℚ) + Kd * (derivative : ℚ)
  (⟨integral, error⟩, output)

/-- Folding pidUpdate over a sequence of error inputs. -/
def pidRun (s : PIDState) : List Int → PIDState
  | [] => s
  | e :: es => pidRun (pidUpdate s e).1 es

/-- The tiered dispatch on error performed in the detection branch of
line_detection_thread (the nested if chain calling move_forward,
left_forward, right_forward, turn_left, turn_right). -/
def classify (error : Int) : MotorState :=
  if |error| < 30 then .forward
  else if |error| < 80 then
    if error > 0 then .left_forward else .right_forward
  else
    if error > 0 then
      if error > 150 then .left else .left_forward
    else
      if error < -150 then .right else .right_forward

/-- Values of the last_direction global (initialized to the string
forward, later set to left or right). -/
inductive LastDir
  | forward
  | left
  | right
  deriving DecidableEq, Repr

/-- State touched by the line detection thread: the line_detected,
last_line_pos, last_line_time, line_lost_counter and last_direction
globals, the PID locals, and the actuator state. -/
structure LineState where
  lineDetected : Bool
  lastLinePos : Option Int
  lastLineTime : ℚ
  lostCounter : Nat
  lastDirection : LastDir
  pid : PIDState
  motor : ActState
  deriving DecidableEq, Repr

/-- Which branch of the control cycle ran. -/
inductive CycleEvent
  | obstacleStop
  | frameFail
  | tracked
  | memoryAssist
  | searchPattern
  | briefLoss
  deriving DecidableEq, Repr

/-- Result of one control cycle: new state, pin writes, branch taken. -/
structure CycleOut where
  state : LineState
  writes : List (Nat × Bool)
  event : CycleEvent
  deriving DecidableEq, Repr

/-- Detection branch of line_detection_thread (line_pos is not None):
reset the lost counter, mark the line detected, run the PID update,
record last_direction from the sign of the error, and dispatch the
tiered motor command. -/
def trackCycle (st : LineState) (pos : Int) (width : Int) : CycleOut :=
  let frame_center := Int.fdiv width 2
  let error := frame_center - pos
  let pid1 := (pidUpdate st.pid error).1
  let dir := if error > 0 then LastDir.left
             else if error < 0 then LastDir.right
             else st.lastDirection
  let mw := applyCmd st.motor (classify error)
  ⟨{ st with lineDetected := true, lostCounter := 0, pid := pid1,
             lastDirection := dir, motor := mw.1 },
   mw.2, .tracked⟩

/-- Dead-zone bias used by the memory branch: left_forward when the
remembered position is more than 50 px left of center, right_forward
when more than 50 px right, else move_forward. -/
def deadZoneCmd (p : Int) (frame_center : Int) : MotorState :=
  if p < frame_center - 50 then .left_forward
  else if p > frame_center + 50 then .right_forward
  else .forward

/-- Memory branch of the no-line case: bias movement by where the line
was last seen. -/
def memoryCycle (st : LineState) (p : Int) (width : Int) : CycleOut :=
  let mw := applyCmd st.motor (deadZoneCmd p (Int.fdiv width 2))
  ⟨{ st with motor := mw.1 }, mw.2, .memoryAssist⟩

/-- Search command chosen once the lost counter has been capped: sweep
opposite to the last known direction, or, when the direction was never
updated, pick by line_lost_counter % 40 < 20. -/
def searchCmd (st : LineState) : MotorState :=
  match st.lastDirection with
  | .left => .right_forward
  | .right => .left_forward
  | .forward => if st.lostCounter % 40 < 20 then .search_right else .search_left

/-- Loss handling after the memory check failed: either the search
pattern (counter at or above the maximum, counter capped first) or the
brief-loss continuation in the last direction. -/
def lossBranch (st : LineState) : CycleOut :=
  if max_line_lost_count ≤ st.lostCounter then
    let st1 : LineState := { st with lostCounter := max_line_lost_count }
    let mw := applyCmd st1.motor (searchCmd st1)
    ⟨{ st1 with motor := mw.1 }, mw.2, .searchPattern⟩
  else
    let cmd := match st.lastDirection with
      | .left => MotorState.left_forward
      | .right => MotorState.right_forward
      | .forward => MotorState.forward
    let mw := applyCmd st.motor cmd
    ⟨{ st with motor := mw.1 }, mw.2, .briefLoss⟩

/-- The per-cycle logic of line_detection_thread downstream of
get_line_position: the detection branch on a position, otherwise
increment the lost counter and try memory, search, or brief-loss
recovery in that order. -/
def threadBranch (st : LineState) (linePos : Option Int) (now : ℚ) (width : Int) : CycleOut :=
  match linePos with
  | some pos => trackCycle st pos width
  | none =>
    let st1 : LineState := { st with lineDetected := false,
                                     lostCounter := st.lostCounter + 1 }
    match st.lastLinePos with
    | some p =>
        if now - st.lastLineTime ≤ line_memory_timeout then memoryCycle st1 p width
        else lossBranch st1
    | none => lossBranch st1

/-- The tail of get_line_position.  The raw argument is the position
produced by the contour and column-sum stages of the image pipeline
(None when both found nothing).  On success the value is jump-smoothed
against the remembered position and the memory is refreshed; on a raw
miss the remembered position is returned as long as it is younger than
line_memory_timeout (strictly). -/
def get_line_position (st : LineState) (raw : Option Int) (now : ℚ) :
    Option Int × LineState :=
  match raw with
  | some cx0 =>
    let cx := match st.lastLinePos with
      | some p => if |cx0 - p| > 100 then p + Int.fdiv (cx0 - p) 2 else cx0
      | none => cx0
    (some cx, { st with lastLinePos := some cx, lastLineTime := now })
  | none =>
    match st.lastLinePos with
    | some p =>
        if now - st.lastLineTime < line_memory_timeout then (some p, st)
        else (none, st)
    | none => (none, st)

/-- Obstacle branch at the top of the control loop: call stop and skip
the rest of the cycle. -/
def obstacleCycle (st : LineState) : CycleOut :=
  let mw := applyCmd st.motor .stopped
  ⟨{ st with motor := mw.1 }, mw.2, .obstacleStop⟩

/-- One full iteration of the while loop of line_detection_thread:
obstacle check first, then the camera read (frameOk is the ret flag),
then get_line_position, then the branch on its result. -/
def fullCycle (st : LineState) (obstacle frameOk : Bool) (raw : Option Int)
    (now : ℚ) (width : Int) : CycleOut :=
  if obstacle then obstacleCycle st
  else if frameOk then
    let r := get_line_position st raw now
    threadBranch r.2 r.1 now width
  else ⟨st, [], .frameFail⟩

/-- Iterate threadBranch with no detection, one cycle per timestamp in
the list. -/
def missRun (st : LineState) (width : Int) : List ℚ → LineState
  | [] => st
  | t :: ts => missRun (threadBranch st none t width).state width ts

/-- Commands produced by n consecutive full cycles with no obstacle, a
good frame, and no raw detection, at a fixed timestamp. -/
def cycleCommands (st : LineState) (width : Int) (now : ℚ) : Nat → List MotorState
  | 0 => []
  | n + 1 =>
    let out := fullCycle st false true none now width
    out.state.motor.current :: cycleCommands out.state width now n

/-- The two ultrasonic sensors. -/
inductive Sensor
  | front
  | rear
  deriving DecidableEq, Repr

/-- The front_distance, rear_distance and obstacle_detected globals. -/
structure ObstacleStatus where
  front_distance : ℚ
  rear_distance : ℚ
  obstacle_detected : Bool
  deriving DecidableEq, Repr

/-- Outcome of get_distance: -1 when either echo-edge wait timed out,
otherwise the elapsed high time converted to centimeters. -/
def get_distance (riseTimedOut fallTimedOut : Bool) (start_time end_time : ℚ) : ℚ :=
  if riseTimedOut = true then -1
  else if fallTimedOut = true then -1
  else (end_time - start_time) * 34300 / 2

/-- Front-sensor block of distance_sensor_thread: on a positive
measurement store it and recompute obstacle_detected edge-triggered
(the returned Bool records whether the obstacle log fired). -/
def frontUpdate (st : ObstacleStatus) (current_distance : ℚ) : ObstacleStatus × Bool :=
  if 0 < current_distance then
    let st1 : ObstacleStatus := { st with front_distance := current_distance }
    if st1.front_distance < OBSTACLE_DISTANCE then
      if st1.obstacle_detected then (st1, false)
      else ({ st1 with obstacle_detected := true }, true)
    else
      if st1.obstacle_detected then ({ st1 with obstacle_detected := false }, true)
      else (st1, false)
  else (st, false)

/-- Rear-sensor block of distance_sensor_thread, mirror of frontUpdate. -/
def rearUpdate (st : ObstacleStatus) (current_distance : ℚ) : ObstacleStatus × Bool :=
  if 0 < current_distance then
    let st1 : ObstacleStatus := { st with rear_distance := current_distance }
    if st1.rear_distance < OBSTACLE_DISTANCE then
      if st1.obstacle_detected then (st1, false)
      else ({ st1 with obstacle_detected := true }, true)
    else
      if st1.obstacle_detected then ({ st1 with obstacle_detected := false }, true)
      else (st1, false)
  else (st, false)

/-- One sensor-thread iteration given the measured value for the sensor
that was polled. -/
def sensorStep (moving_backward : Bool) (st : ObstacleStatus) (d : ℚ) :
    ObstacleStatus × Bool :=
  if moving_backward then rearUpdate st d else frontUpdate st d

/-- One sensor-thread iteration given the measurement environment: the
rear sensor is polled while moving_backward, else the front sensor. -/
def sensorCycle (moving_backward : Bool) (st : ObstacleStatus)
    (measure : Sensor → ℚ) : ObstacleStatus × Bool :=
  sensorStep moving_backward st
    (measure (if moving_backward then Sensor.rear else Sensor.front))

/-- Fold sensorStep over a list of measured values, counting how many
iterations fired the obstacle log. -/
def sensorRun (moving_backward : Bool) (st : ObstacleStatus) :
    List ℚ → ObstacleStatus × Nat
  | [] => (st, 0)
  | d :: ds =>
    let r := sensorStep moving_backward st d
    let rest := sensorRun moving_backward r.1 ds
    (rest.1, (if r.2 then 1 else 0) + rest.2)

/-- The state update performed at the top of the no-line branch: clear
line_detected and increment the lost counter. -/
def missStep (st : LineState) : LineState :=
  { st with lineDetected := false, lostCounter := st.lostCounter + 1 }

/-- Thread state right after the startup stop() call, matching the
initial values of the globals. -/
def startState : LineState :=
  { lineDetected := false, lastLinePos := none, lastLineTime := 0,
    lostCounter := 0, lastDirection := .forward,
    pid := ⟨0, 0⟩, motor := ⟨.stopped, false⟩ }

/-- State right after a detection at position 160 at time 0 (line seen
at frame center of a 320 px frame), used for concrete runs. -/
def stAfterCenterDetection : LineState :=
  { lineDetected := true, lastLinePos := some 160, lastLineTime := 0,
    lostCounter := 0, lastDirection := .left,
    pid := ⟨0, 0⟩, motor := ⟨.forward, false⟩ }

/-- State right after a detection at position 120 at time 0 (line seen
40 px left of the center of a 320 px frame). -/
def stAfterLeftDetection : LineState :=
  { lineDetected := true, lastLinePos := some 120, lastLineTime := 0,
    lostCounter := 0, lastDirection := .left,
    pid := ⟨0, 0⟩, motor := ⟨.forward, false⟩ }

/-- Fully lost state: no stored line position, last_direction still at
its initial value, lost counter already at the search threshold. -/
def stFullyLost : LineState :=
  { lineDetected := false, lastLinePos := none, lastLineTime := 0,
    lostCounter := 20, lastDirection := .forward,
    pid := ⟨0, 0⟩, motor := ⟨.stopped, false⟩ }

/- Helper lemmas shared by several claims. -/

/-- After invoking any motor routine the tracked state equals the
requested command. -/
theorem applyCmd_current (s : ActState) (c : MotorState) :
    (applyCmd s c).1.current = c := by
  unfold applyCmd
  split
  · next h => exact h.2
  · rfl

/-- A guarded motor routine whose target equals the current state
returns immediately. -/
theorem applyCmd_same (s : ActState) (c : MotorState) (hg : hasIdemGuard c = true)
    (hc : s.current = c) : applyCmd s c = (s, []) := by
  unfold applyCmd
  rw [if_pos ⟨hg, hc⟩]

/-- The clamp used for the integral term always lands inside the
anti-windup range. -/
theorem clamp_abs_le (x : Int) : |max (-100) (min 100 x)| ≤ 100 := by
  rw [abs_le]
  exact ⟨le_max_left _ _, max_le (by norm_num) (min_le_left _ _)⟩

/-- After any nonempty run of PID updates the integral term is inside
the anti-windup range. -/
theorem pidRun_abs_le (s : PIDState) (errs : List Int) (h : errs ≠ []) :
    |(pidRun s errs).integral| ≤ 100 := by
  induction errs generalizing s with
  | nil => exact absurd rfl h
  | cons e es ih =>
    cases es with
    | nil => exact clamp_abs_le (s.integral + e)
    | cons f fs => exact ih (pidUpdate s e).1 (by simp)

/-- C2: every PID update computes the clamped integral, the derivative
against the previous error, the weighted output, and stores the error;
the integral stays within the anti-windup bound after every update of
any input sequence. -/
theorem pid_update_spec_and_windup (s : PIDState) (e : Int) :
    (pidUpdate s e).1.integral = max (-100) (min 100 (s.integral + e)) ∧
    (pidUpdate s e).1.prevError = e ∧
    (pidUpdate s e).2 =
      Kp * (e : ℚ) + Ki * ((max (-100) (min 100 (s.integral + e)) : Int) : ℚ) +
        Kd * (((e - s.prevError : Int)) : ℚ) ∧
    |(pidUpdate s e).1.integral| ≤ 100 ∧
    (∀ errs : List Int, errs ≠ [] → |(pidRun s errs).integral| ≤ 100) :=
  ⟨rfl, rfl, rfl, clamp_abs_le _, fun errs h => pidRun_abs_le s errs h⟩

/-- Witness for C2 at a concrete state and error sequence. -/
theorem pid_windup_example :
    |(pidRun ⟨0, 0⟩ [5, 200, -500]).integral| ≤ 100 :=
  (pid_update_spec_and_windup ⟨0, 0⟩ 0).2.2.2.2 [5, 200, -500] (by simp)

/-- C3 counterexample: an error of exactly 150 dispatches left_forward
(a veer), not turn_left, so the turn tier is entered only strictly
above 150. -/
theorem classify_at_150_is_veer_not_turn :
    classify 150 = MotorState.left_forward ∧
    classify (-150) = MotorState.right_forward ∧
    MotorState.left_forward ≠ MotorState.left ∧
    MotorState.right_forward ≠ MotorState.right := by
  decide

/-- C3 amended: the tiers partition by absolute error with boundary 150
belonging to the veer tier: below 30 forward, from 30 below 80 veer by
sign, from 80 up to and including 150 veer by sign, strictly above 150
turn by sign. -/
theorem classify_tiers (e : Int) :
    (|e| < 30 → classify e = MotorState.forward) ∧
    (30 ≤ |e| → |e| < 80 →
      classify e = if 0 < e then MotorState.left_forward else MotorState.right_forward) ∧
    (80 ≤ |e| → |e| ≤ 150 →
      classify e = if 0 < e then MotorState.left_forward else MotorState.right_forward) ∧
    (150 < |e| →
      classify e = if 0 < e then MotorState.left else MotorState.right) := by
  unfold classify
  rcases abs_cases e with ⟨hab, hsgn⟩ | ⟨hab, hsgn⟩ <;> rw [hab] <;>
    refine ⟨?_, ?_, ?_, ?_⟩ <;> intros <;> split_ifs <;>
    first | rfl | (exfalso; omega)

/-- Witness for C3 at a concrete error. -/
theorem classify_tiers_example : classify 20 = MotorState.forward :=
  (classify_tiers 20).1 (by decide)

/-- C7 counterexample: reapplying search_left while it is already the
current motor state performs the pin writes again, so the actuator is
not idempotent on the inline search commands. -/
theorem search_left_reapply_writes_again :
    (applyCmd ⟨MotorState.search_left, false⟩ MotorState.search_left).2 =
      writesFor MotorState.search_left ∧
    writesFor MotorState.search_left ≠ [] ∧
    (applyCmd ⟨MotorState.search_left, false⟩ MotorState.search_left).1.current =
      MotorState.search_left := by
  decide

/-- C7 amended: every command issued through a named motor routine is
idempotent (equal current state means no writes, and a second
application right after a first performs no writes), while a command
with a different current state performs its full nonempty write list;
the two inline search actuations are excluded from the guarantee. -/
theorem apply_idempotent_for_guarded (s : ActState) (c : MotorState) :
    (hasIdemGuard c = true → s.current = c → applyCmd s c = (s, [])) ∧
    (s.current ≠ c → (applyCmd s c).2 = writesFor c ∧ writesFor c ≠ []) ∧
    (hasIdemGuard c = true → (applyCmd (applyCmd s c).1 c).2 = []) := by
  refine ⟨?_, ?_, ?_⟩
  · intro hg hc
    exact applyCmd_same s c hg hc
  · intro hne
    constructor
    · unfold applyCmd
      rw [if_neg]
      rintro ⟨-, h⟩
      exact hne h
    · cases c <;> decide
  · intro hg
    rw [applyCmd_same _ c hg (applyCmd_current s c)]

/-- Witness for C7: a forward command applied twice from a stopped
state writes nothing the second time. -/
theorem apply_idempotent_example :
    (applyCmd (applyCmd ⟨MotorState.stopped, false⟩ MotorState.forward).1
      MotorState.forward).2 = [] :=
  (apply_idempotent_for_guarded ⟨MotorState.stopped, false⟩ MotorState.forward).2.2 rfl

/- Sensor-thread lemmas. -/

/-- A failed measurement (nonpositive value) leaves the status entirely
unchanged and fires no log. -/
theorem sensorStep_fail (mb : Bool) (st : ObstacleStatus) (d : ℚ) (h0 : ¬ 0 < d) :
    sensorStep mb st d = (st, false) := by
  cases mb <;> simp [sensorStep, frontUpdate, rearUpdate, h0]

/-- A successful below-threshold measurement sets the flag and logs
exactly when the flag was clear. -/
theorem sensorStep_below (mb : Bool) (st : ObstacleStatus) (d : ℚ)
    (h0 : 0 < d) (h1 : d < OBSTACLE_DISTANCE) :
    (sensorStep mb st d).1.obstacle_detected = true ∧
    (sensorStep mb st d).2 = !st.obstacle_detected := by
  cases mb <;> cases hb : st.obstacle_detected <;>
    simp [sensorStep, frontUpdate, rearUpdate, h0, h1, hb]

/-- A successful at-or-above-threshold measurement clears the flag and
logs exactly when the flag was set. -/
theorem sensorStep_above (mb : Bool) (st : ObstacleStatus) (d : ℚ)
    (h1 : OBSTACLE_DISTANCE ≤ d) :
    (sensorStep mb st d).1.obstacle_detected = false ∧
    (sensorStep mb st d).2 = st.obstacle_detected := by
  have h0 : 0 < d := lt_of_lt_of_le (by norm_num [OBSTACLE_DISTANCE]) h1
  have h2 : ¬ d < OBSTACLE_DISTANCE := not_lt.mpr h1
  cases mb <;> cases hb : st.obstacle_detected <;>
    simp [sensorStep, frontUpdate, rearUpdate, h0, h2, hb]

/-- Over a run of successful below-threshold readings, the log fires at
most once, and only if the flag started clear. -/
theorem sensorRun_below (mb : Bool) (ds : List ℚ) (st : ObstacleStatus)
    (h : ∀ x ∈ ds, 0 < x ∧ x < OBSTACLE_DISTANCE) :
    (sensorRun mb st ds).2 ≤ if st.obstacle_detected then 0 else 1 := by
  induction ds generalizing st with
  | nil =>
    simp only [sensorRun]
    split_ifs <;> simp
  | cons d ds ih =>
    obtain ⟨h0, h1⟩ := h d (List.mem_cons_self d ds)
    have hstep := sensorStep_below mb st d h0 h1
    have hrec := ih (sensorStep mb st d).1 (fun x hx => h x (List.mem_cons_of_mem d hx))
    rw [hstep.1] at hrec
    simp only [sensorRun, hstep.2]
    cases hb : st.obstacle_detected <;> simp_all

/-- Over a run of at-or-above-threshold readings, the log fires at most
once, and only if the flag started set. -/
theorem sensorRun_above (mb : Bool) (ds : List ℚ) (st : ObstacleStatus)
    (h : ∀ x ∈ ds, OBSTACLE_DISTANCE ≤ x) :
    (sensorRun mb st ds).2 ≤ if st.obstacle_detected then 1 else 0 := by
  induction ds generalizing st with
  | nil =>
    simp only [sensorRun]
    split_ifs <;> simp
  | cons d ds ih =>
    have h1 := h d (List.mem_cons_self d ds)
    have hstep := sensorStep_above mb st d h1
    have hrec := ih (sensorStep mb st d).1 (fun x hx => h x (List.mem_cons_of_mem d hx))
    rw [hstep.1] at hrec
    simp only [sensorRun, hstep.2]
    cases hb : st.obstacle_detected <;> simp_all

/-- C8: when either echo-edge wait times out, get_distance returns -1
and the sensor cycle keeps both stored distances and the detected flag
unchanged. -/
theorem timeout_retains_state (rt ft : Bool) (t0 t1 : ℚ) (mb : Bool)
    (st : ObstacleStatus) (h : rt = true ∨ ft = true) :
    get_distance rt ft t0 t1 = -1 ∧
    sensorStep mb st (get_distance rt ft t0 t1) = (st, false) ∧
    (sensorStep mb st (get_distance rt ft t0 t1)).1.front_distance = st.front_distance ∧
    (sensorStep mb st (get_distance rt ft t0 t1)).1.rear_distance = st.rear_distance ∧
    (sensorStep mb st (get_distance rt ft t0 t1)).1.obstacle_detected =
      st.obstacle_detected := by
  have hd : get_distance rt ft t0 t1 = -1 := by
    unfold get_distance
    rcases h with h | h
    · rw [if_pos h]
    · rw [h]
      split_ifs <;> first | rfl | simp_all
  have hs : sensorStep mb st (get_distance rt ft t0 t1) = (st, false) := by
    rw [hd]
    exact sensorStep_fail mb st (-1) (by norm_num)
  exact ⟨hd, hs, by rw [hs], by rw [hs], by rw [hs]⟩

/-- Witness for C8: a rise-wait timeout fails the measurement. -/
theorem timeout_retains_state_example :
    get_distance true false 0 0 = -1 ∧
    sensorStep false ⟨100, 100, false⟩ (get_distance true false 0 0) =
      (⟨100, 100, false⟩, false) :=
  ⟨(timeout_retains_state true false 0 0 false ⟨100, 100, false⟩ (Or.inl rfl)).1,
   (timeout_retains_state true false 0 0 false ⟨100, 100, false⟩ (Or.inl rfl)).2.1⟩

/-- C9: the obstacle log fires exactly when the detected flag changes
value, and over any run of readings all on one side of the threshold
the flag flips (and hence logs) at most once. -/
theorem detected_edge_triggered (mb : Bool) (st : ObstacleStatus) (d : ℚ) :
    ((sensorStep mb st d).2 = true ↔
      (sensorStep mb st d).1.obstacle_detected ≠ st.obstacle_detected) ∧
    (∀ ds : List ℚ,
      ((∀ x ∈ ds, 0 < x ∧ x < OBSTACLE_DISTANCE) ∨ (∀ x ∈ ds, OBSTACLE_DISTANCE ≤ x)) →
      (sensorRun mb st ds).2 ≤ 1) := by
  constructor
  · by_cases h0 : 0 < d
    · by_cases h1 : d < OBSTACLE_DISTANCE
      · have hs := sensorStep_below mb st d h0 h1
        rw [hs.1, hs.2]
        cases st.obstacle_detected <;> simp
      · have hs := sensorStep_above mb st d (not_lt.mp h1)
        rw [hs.1, hs.2]
        cases st.obstacle_detected <;> simp
    · rw [sensorStep_fail mb st d h0]
      simp
  · intro ds hds
    rcases hds with hds | hds
    · exact le_trans (sensorRun_below mb ds st hds) (by split_ifs <;> omega)
    · exact le_trans (sensorRun_above mb ds st hds) (by split_ifs <;> omega)

/-- Witness for C9: two below-threshold readings from a clear state log
at most once. -/
theorem detected_edge_triggered_example :
    (sensorRun false ⟨100, 100, false⟩ [10, 5]).2 ≤ 1 :=
  (detected_edge_triggered false ⟨100, 100, false⟩ 10).2 [10, 5] (Or.inl (by decide))

/-- The rear-sensor block never touches the stored front distance. -/
theorem rearUpdate_front (st : ObstacleStatus) (d : ℚ) :
    (rearUpdate st d).1.front_distance = st.front_distance := by
  simp only [rearUpdate]
  split_ifs <;> rfl

/-- The front-sensor block never touches the stored rear distance. -/
theorem frontUpdate_rear (st : ObstacleStatus) (d : ℚ) :
    (frontUpdate st d).1.rear_distance = st.rear_distance := by
  simp only [frontUpdate]
  split_ifs <;> rfl

/-- C10: while moving backward the cycle consults only the rear sensor
and leaves the front distance unchanged; otherwise it consults only the
front sensor and leaves the rear distance unchanged.  The result is
independent of the measurement available from the sensor that was not
selected. -/
theorem direction_selects_sensor_exclusively (st : ObstacleStatus)
    (measure : Sensor → ℚ) :
    sensorCycle true st measure = sensorStep true st (measure Sensor.rear) ∧
    sensorCycle false st measure = sensorStep false st (measure Sensor.front) ∧
    (sensorCycle true st measure).1.front_distance = st.front_distance ∧
    (sensorCycle false st measure).1.rear_distance = st.rear_distance ∧
    (∀ m2 : Sensor → ℚ, m2 Sensor.front = measure Sensor.front →
      sensorCycle false st m2 = sensorCycle false st measure) ∧
    (∀ m2 : Sensor → ℚ, m2 Sensor.rear = measure Sensor.rear →
      sensorCycle true st m2 = sensorCycle true st measure) := by
  refine ⟨rfl, rfl, rearUpdate_front st _, frontUpdate_rear st _, ?_, ?_⟩
  · intro m2 hm
    show sensorStep false st (m2 Sensor.front) = sensorStep false st (measure Sensor.front)
    rw [hm]
  · intro m2 hm
    show sensorStep true st (m2 Sensor.rear) = sensorStep true st (measure Sensor.rear)
    rw [hm]

/-- Witness for C10: changing only the rear measurement does not change
a forward-travel cycle. -/
theorem direction_selects_sensor_example :
    sensorCycle false ⟨100, 100, false⟩
        (fun s => match s with | Sensor.front => (10 : ℚ) | Sensor.rear => 99) =
      sensorCycle false ⟨100, 100, false⟩ (fun _ => (10 : ℚ)) :=
  (direction_selects_sensor_exclusively ⟨100, 100, false⟩
    (fun _ => (10 : ℚ))).2.2.2.2.1
    (fun s => match s with | Sensor.front => (10 : ℚ) | Sensor.rear => 99) rfl

/- Control-cycle characterization lemmas. -/

/-- Projection facts for the no-line state update. -/
theorem missStep_lostCounter (st : LineState) :
    (missStep st).lostCounter = st.lostCounter + 1 := rfl

/-- The no-line state update keeps the remembered position. -/
theorem missStep_lastLinePos (st : LineState) :
    (missStep st).lastLinePos = st.lastLinePos := rfl

/-- The no-line state update keeps the memory timestamp. -/
theorem missStep_lastLineTime (st : LineState) :
    (missStep st).lastLineTime = st.lastLineTime := rfl

/-- The no-line state update keeps the last direction. -/
theorem missStep_lastDirection (st : LineState) :
    (missStep st).lastDirection = st.lastDirection := rfl

/-- Unfolding the detection branch. -/
theorem threadBranch_some (st : LineState) (pos : Int) (now : ℚ) (w : Int) :
    threadBranch st (some pos) now w = trackCycle st pos w := rfl

/-- Unfolding the no-line branch when the memory is present and young
enough for the thread-level check. -/
theorem threadBranch_none_fresh (st : LineState) (p : Int) (now : ℚ) (w : Int)
    (hp : st.lastLinePos = some p) (ht : now - st.lastLineTime ≤ line_memory_timeout) :
    threadBranch st none now w = memoryCycle (missStep st) p w := by
  unfold threadBranch
  simp only [hp]
  rw [if_pos ht]
  simp only [missStep, hp]

/-- Unfolding the no-line branch when the memory is absent or expired. -/
theorem threadBranch_none_stale (st : LineState) (now : ℚ) (w : Int)
    (h : st.lastLinePos = none ∨ line_memory_timeout < now - st.lastLineTime) :
    threadBranch st none now w = lossBranch (missStep st) := by
  unfold threadBranch
  rcases h with h | h
  · simp only [h, missStep]
  · cases hp : st.lastLinePos with
    | none => simp only [hp, missStep]
    | some p =>
      simp only [hp]
      rw [if_neg (not_le.mpr h)]
      simp only [missStep, hp]

/-- Field-level description of the detection branch. -/
theorem trackCycle_spec (st : LineState) (pos : Int) (w : Int) :
    (trackCycle st pos w).state.lostCounter = 0 ∧
    (trackCycle st pos w).state.lineDetected = true ∧
    (trackCycle st pos w).state.lastLinePos = st.lastLinePos ∧
    (trackCycle st pos w).state.lastLineTime = st.lastLineTime ∧
    (trackCycle st pos w).state.pid = (pidUpdate st.pid (Int.fdiv w 2 - pos)).1 ∧
    (trackCycle st pos w).event = CycleEvent.tracked ∧
    (trackCycle st pos w).state.motor.current = classify (Int.fdiv w 2 - pos) :=
  ⟨rfl, rfl, rfl, rfl, rfl, rfl, applyCmd_current _ _⟩

/-- Field-level description of the memory branch. -/
theorem memoryCycle_spec (st : LineState) (p : Int) (w : Int) :
    (memoryCycle st p w).state.lostCounter = st.lostCounter ∧
    (memoryCycle st p w).state.lastLinePos = st.lastLinePos ∧
    (memoryCycle st p w).state.lastLineTime = st.lastLineTime ∧
    (memoryCycle st p w).state.lastDirection = st.lastDirection ∧
    (memoryCycle st p w).state.lineDetected = st.lineDetected ∧
    (memoryCycle st p w).event = CycleEvent.memoryAssist ∧
    (memoryCycle st p w).state.motor.current = deadZoneCmd p (Int.fdiv w 2) :=
  ⟨rfl, rfl, rfl, rfl, rfl, rfl, applyCmd_current _ _⟩

/-- Field-level description of the loss branch: the counter is capped
exactly when the search pattern is entered. -/
theorem lossBranch_spec (st : LineState) :
    (lossBranch st).state.lostCounter = min st.lostCounter max_line_lost_count ∧
    (lossBranch st).state.lastLinePos = st.lastLinePos ∧
    (lossBranch st).state.lastLineTime = st.lastLineTime ∧
    (lossBranch st).state.lastDirection = st.lastDirection ∧
    (lossBranch st).state.pid = st.pid ∧
    (lossBranch st).state.lineDetected = st.lineDetected ∧
    (lossBranch st).event =
      (if max_line_lost_count ≤ st.lostCounter then CycleEvent.searchPattern
       else CycleEvent.briefLoss) ∧
    (lossBranch st).state.motor.current =
      (if max_line_lost_count ≤ st.lostCounter
       then searchCmd { st with lostCounter := max_line_lost_count }
       else match st.lastDirection with
            | LastDir.left => MotorState.left_forward
            | LastDir.right => MotorState.right_forward
            | LastDir.forward => MotorState.forward) := by
  unfold lossBranch
  split_ifs with h
  · exact ⟨by simp only []; omega, rfl, rfl, rfl, rfl, rfl, rfl, applyCmd_current _ _⟩
  · exact ⟨by simp only []; omega, rfl, rfl, rfl, rfl, rfl, rfl, applyCmd_current _ _⟩

/-- When last_direction was never updated and the counter has just been
capped, the chosen search command is always search_left, because the
capped counter makes the modulo test constantly false. -/
theorem searchCmd_unknown (st : LineState) (hd : st.lastDirection = LastDir.forward)
    (hc : st.lostCounter = max_line_lost_count) :
    searchCmd st = MotorState.search_left := by
  unfold searchCmd
  simp only [hd, hc]
  decide

/-- Unfolding get_line_position on a raw miss with memory younger than
the timeout (strict comparison in the source). -/
theorem get_line_position_none_fresh (st : LineState) (p : Int) (now : ℚ)
    (hp : st.lastLinePos = some p) (ht : now - st.lastLineTime < line_memory_timeout) :
    get_line_position st none now = (some p, st) := by
  unfold get_line_position
  simp only [hp]
  rw [if_pos ht]

/-- Unfolding get_line_position on a raw miss with memory absent or at
least as old as the timeout. -/
theorem get_line_position_none_stale (st : LineState) (now : ℚ)
    (h : st.lastLinePos = none ∨ ¬ now - st.lastLineTime < line_memory_timeout) :
    get_line_position st none now = (none, st) := by
  unfold get_line_position
  rcases h with h | h
  · simp only [h]
  · cases hp : st.lastLinePos with
    | none => simp only
    | some p =>
      simp only [hp]
      rw [if_neg h]

/-- A full cycle with no obstacle and a good frame is the thread branch
applied to the get_line_position result. -/
theorem fullCycle_clear (st : LineState) (raw : Option Int) (now : ℚ) (w : Int) :
    fullCycle st false true raw now w =
      threadBranch (get_line_position st raw now).2
        (get_line_position st raw now).1 now w := rfl

/-- C1: whenever the obstacle flag is read true, the cycle issues stop
(writing pins only if the motors were not already stopped), leaves all
line-tracking state untouched, and never consults the camera frame or
the line position, so the result is identical for every frame input. -/
theorem obstacle_cycle_stops_and_skips (st : LineState) (f f2 : Bool)
    (raw raw2 : Option Int) (now now2 : ℚ) (w w2 : Int) :
    (fullCycle st true f raw now w).event = CycleEvent.obstacleStop ∧
    (fullCycle st true f raw now w).state.motor.current = MotorState.stopped ∧
    (fullCycle st true f raw now w).state.pid = st.pid ∧
    (fullCycle st true f raw now w).state.lostCounter = st.lostCounter ∧
    (fullCycle st true f raw now w).state.lastLinePos = st.lastLinePos ∧
    (fullCycle st true f raw now w).state.lastLineTime = st.lastLineTime ∧
    (fullCycle st true f raw now w).state.lastDirection = st.lastDirection ∧
    (fullCycle st true f raw now w).state.lineDetected = st.lineDetected ∧
    (fullCycle st true f raw now w).writes =
      (if st.motor.current = MotorState.stopped then []
       else writesFor MotorState.stopped) ∧
    fullCycle st true f raw now w = fullCycle st true f2 raw2 now2 w2 := by
  refine ⟨rfl, applyCmd_current st.motor MotorState.stopped, rfl, rfl, rfl, rfl, rfl,
          rfl, ?_, rfl⟩
  show (applyCmd st.motor MotorState.stopped).2 = _
  unfold applyCmd
  split_ifs with h1 h2 <;> simp_all [hasIdemGuard]

/-- Over any run of no-detection cycles with no stored position, the
counter follows min of its growth and the cap, and no position ever
appears. -/
theorem missRun_no_memory (w : Int) (ts : List ℚ) (st : LineState)
    (hp : st.lastLinePos = none) (hc : st.lostCounter ≤ max_line_lost_count) :
    (missRun st w ts).lostCounter = min (st.lostCounter + ts.length) max_line_lost_count ∧
    (missRun st w ts).lastLinePos = none := by
  induction ts generalizing st with
  | nil =>
    refine ⟨?_, hp⟩
    simp only [missRun, List.length_nil]
    omega
  | cons t ts ih =>
    simp only [missRun]
    rw [threadBranch_none_stale st t w (Or.inl hp)]
    have hspec := lossBranch_spec (missStep st)
    have hpos : (lossBranch (missStep st)).state.lastLinePos = none := by
      rw [hspec.2.1, missStep_lastLinePos]
      exact hp
    have hcnt : (lossBranch (missStep st)).state.lostCounter =
        min (st.lostCounter + 1) max_line_lost_count := by
      rw [hspec.1, missStep_lostCounter]
    obtain ⟨ih1, ih2⟩ := ih _ hpos (by rw [hcnt]; omega)
    rw [hcnt] at ih1
    refine ⟨?_, ih2⟩
    rw [ih1]
    simp only [List.length_cons]
    omega

/-- Over a run of no-detection cycles at timestamps inside the memory
window, the counter grows without any cap and the memory is untouched. -/
theorem missRun_memory_fresh (w : Int) (n : Nat) (st : LineState) (p : Int) (now : ℚ)
    (hp : st.lastLinePos = some p) (ht : now - st.lastLineTime ≤ line_memory_timeout) :
    (missRun st w (List.replicate n now)).lostCounter = st.lostCounter + n ∧
    (missRun st w (List.replicate n now)).lastLinePos = st.lastLinePos ∧
    (missRun st w (List.replicate n now)).lastLineTime = st.lastLineTime := by
  induction n generalizing st with
  | zero => exact ⟨rfl, rfl, rfl⟩
  | succ n ih =>
    rw [List.replicate_succ]
    simp only [missRun]
    rw [threadBranch_none_fresh st p now w hp ht]
    have hspec := memoryCycle_spec (missStep st) p w
    have hp2 : (memoryCycle (missStep st) p w).state.lastLinePos = some p := by
      rw [hspec.2.1, missStep_lastLinePos]
      exact hp
    have ht2 : now - (memoryCycle (missStep st) p w).state.lastLineTime ≤
        line_memory_timeout := by
      rw [hspec.2.2.1, missStep_lastLineTime]
      exact ht
    obtain ⟨ih1, ih2, ih3⟩ := ih _ hp2 ht2
    refine ⟨?_, ?_, ?_⟩
    · rw [ih1, hspec.1, missStep_lostCounter]
      omega
    · rw [ih2, hspec.2.1, missStep_lastLinePos]
    · rw [ih3, hspec.2.2.1, missStep_lastLineTime]

/-- C4 counterexample: starting right after a detection at time 0, a
run of 21 no-detection cycles at time 1 (all inside the 3 second memory
window) drives the lost counter to 21, strictly above the claimed cap
of 20, because the counter is capped only in the search branch and the
memory branch runs instead of activating the search. -/
theorem lost_counter_exceeds_cap_under_memory :
    (missRun stAfterCenterDetection 320 (List.replicate 21 (1 : ℚ))).lostCounter = 21 ∧
    max_line_lost_count < 21 := by
  have h := missRun_memory_fresh 320 21 stAfterCenterDetection 160 1 rfl
    (by norm_num [stAfterCenterDetection, line_memory_timeout])
  exact ⟨h.1, by decide⟩

/-- C4 amended: the counter resets to 0 on every detection cycle and
increments once on every no-detection cycle; on memory-assisted cycles
it increments with no cap (so it can exceed 20), while on cycles with
absent or expired memory it is capped at 20 exactly when the search
branch activates, and with no stored position it follows min of its
growth and 20 over any run. -/
theorem lost_counter_dynamics (st : LineState) (now : ℚ) (w : Int) :
    (∀ pos, (threadBranch st (some pos) now w).state.lostCounter = 0) ∧
    (∀ p, st.lastLinePos = some p → now - st.lastLineTime ≤ line_memory_timeout →
      (threadBranch st none now w).state.lostCounter = st.lostCounter + 1 ∧
      (threadBranch st none now w).event = CycleEvent.memoryAssist) ∧
    ((st.lastLinePos = none ∨ line_memory_timeout < now - st.lastLineTime) →
      (threadBranch st none now w).state.lostCounter =
        (if max_line_lost_count ≤ st.lostCounter + 1 then max_line_lost_count
         else st.lostCounter + 1) ∧
      (threadBranch st none now w).event =
        (if max_line_lost_count ≤ st.lostCounter + 1 then CycleEvent.searchPattern
         else CycleEvent.briefLoss)) ∧
    (st.lastLinePos = none → st.lostCounter ≤ max_line_lost_count →
      ∀ ts : List ℚ, (missRun st w ts).lostCounter =
        min (st.lostCounter + ts.length) max_line_lost_count) := by
  refine ⟨fun pos => rfl, ?_, ?_, ?_⟩
  · intro p hp ht
    rw [threadBranch_none_fresh st p now w hp ht]
    have hspec := memoryCycle_spec (missStep st) p w
    refine ⟨?_, hspec.2.2.2.2.2.1⟩
    rw [hspec.1, missStep_lostCounter]
  · intro h
    rw [threadBranch_none_stale st now w h]
    have hspec := lossBranch_spec (missStep st)
    refine ⟨?_, ?_⟩
    · rw [hspec.1, missStep_lostCounter]
      split_ifs <;> omega
    · rw [hspec.2.2.2.2.2.2.1, missStep_lostCounter]
  · intro hp hc ts
    exact (missRun_no_memory w ts st hp hc).1

/-- Witness for C4: from the startup state, 25 no-detection cycles land
the counter at the cap. -/
theorem lost_counter_dynamics_example :
    (missRun startState 320 (List.replicate 25 (0 : ℚ))).lostCounter =
      min (startState.lostCounter + (List.replicate 25 (0 : ℚ)).length)
        max_line_lost_count :=
  (lost_counter_dynamics startState 0 320).2.2.2 rfl (by decide)
    (List.replicate 25 (0 : ℚ))

/-- C5 counterexample: one cycle after a detection of the line 40 px
left of center, a raw detection miss inside the memory window takes the
tracked path (get_line_position substitutes the remembered position)
and issues left_forward by the tier table, while the dead-zone rule the
claim describes would issue forward for this remembered position. -/
theorem memory_miss_uses_tracked_path_not_dead_zone :
    (fullCycle stAfterLeftDetection false true none 1 320).event = CycleEvent.tracked ∧
    (fullCycle stAfterLeftDetection false true none 1 320).state.motor.current =
      MotorState.left_forward ∧
    deadZoneCmd 120 (Int.fdiv 320 2) = MotorState.forward ∧
    MotorState.left_forward ≠ MotorState.forward := by
  have h1 : fullCycle stAfterLeftDetection false true none 1 320 =
      trackCycle stAfterLeftDetection 120 320 := by
    rw [fullCycle_clear,
        get_line_position_none_fresh stAfterLeftDetection 120 1 rfl
          (by norm_num [stAfterLeftDetection, line_memory_timeout])]
    rfl
  refine ⟨by rw [h1]; rfl, ?_, by decide, by decide⟩
  rw [h1]
  exact ((trackCycle_spec stAfterLeftDetection 120 320).2.2.2.2.2.2).trans (by decide)

/-- C5 amended: the dead-zone bias governs the thread branch taken when
the line input is absent with memory at most 3 s old; but because
get_line_position itself returns the remembered position while the
memory is strictly younger than 3 s, a raw miss in that window takes
the tracked path classifying the error against the remembered position
and resetting the counter, and once the memory is strictly older than
3 s the cycle falls through to the loss-counter logic. -/
theorem memory_recovery_semantics (st : LineState) (p : Int) (now : ℚ) (w : Int)
    (hp : st.lastLinePos = some p) :
    (now - st.lastLineTime ≤ line_memory_timeout →
      (threadBranch st none now w).event = CycleEvent.memoryAssist ∧
      (threadBranch st none now w).state.motor.current = deadZoneCmd p (Int.fdiv w 2) ∧
      (threadBranch st none now w).state.lostCounter = st.lostCounter + 1) ∧
    (now - st.lastLineTime < line_memory_timeout →
      (fullCycle st false true none now w).event = CycleEvent.tracked ∧
      (fullCycle st false true none now w).state.motor.current =
        classify (Int.fdiv w 2 - p) ∧
      (fullCycle st false true none now w).state.lostCounter = 0) ∧
    (line_memory_timeout < now - st.lastLineTime →
      (fullCycle st false true none now w).event = CycleEvent.searchPattern ∨
      (fullCycle st false true none now w).event = CycleEvent.briefLoss) := by
  refine ⟨?_, ?_, ?_⟩
  · intro ht
    rw [threadBranch_none_fresh st p now w hp ht]
    have hspec := memoryCycle_spec (missStep st) p w
    refine ⟨hspec.2.2.2.2.2.1, hspec.2.2.2.2.2.2, ?_⟩
    rw [hspec.1, missStep_lostCounter]
  · intro ht
    have h1 : fullCycle st false true none now w = trackCycle st p w := by
      rw [fullCycle_clear, get_line_position_none_fresh st p now hp ht]
      rfl
    rw [h1]
    have hspec := trackCycle_spec st p w
    exact ⟨hspec.2.2.2.2.2.1, hspec.2.2.2.2.2.2, hspec.1⟩
  · intro ht
    have h1 : fullCycle st false true none now w = lossBranch (missStep st) := by
      rw [fullCycle_clear,
          get_line_position_none_stale st now (Or.inr (not_lt.mpr (le_of_lt ht)))]
      exact threadBranch_none_stale st now w (Or.inr ht)
    rw [h1]
    have hspec := lossBranch_spec (missStep st)
    rw [hspec.2.2.2.2.2.2.1]
    split_ifs
    · exact Or.inl rfl
    · exact Or.inr rfl

/-- Witness for C5: with memory exactly 3 s old the thread branch emits
the dead-zone command and increments the counter. -/
theorem memory_recovery_example :
    (threadBranch stAfterLeftDetection none 3 320).event = CycleEvent.memoryAssist ∧
    (threadBranch stAfterLeftDetection none 3 320).state.motor.current =
      deadZoneCmd 120 (Int.fdiv 320 2) ∧
    (threadBranch stAfterLeftDetection none 3 320).state.lostCounter =
      stAfterLeftDetection.lostCounter + 1 :=
  (memory_recovery_semantics stAfterLeftDetection 120 3 320 rfl).1
    (by norm_num [stAfterLeftDetection, line_memory_timeout])

/-- Once fully lost with an unknown direction, every subsequent search
cycle emits search_left: the counter is always capped to 20 before the
alternation test, which is therefore constantly false. -/
theorem cycleCommands_unknown_search (w : Int) (now : ℚ) (n : Nat) (st : LineState)
    (hp : st.lastLinePos = none) (hd : st.lastDirection = LastDir.forward)
    (hc : max_line_lost_count ≤ st.lostCounter + 1) :
    cycleCommands st w now n = List.replicate n MotorState.search_left := by
  induction n generalizing st with
  | zero => rfl
  | succ n ih =>
    have h1 : fullCycle st false true none now w = lossBranch (missStep st) := by
      rw [fullCycle_clear, get_line_position_none_stale st now (Or.inl hp)]
      exact threadBranch_none_stale st now w (Or.inl hp)
    have hspec := lossBranch_spec (missStep st)
    have hcond : max_line_lost_count ≤ (missStep st).lostCounter := by
      rw [missStep_lostCounter]
      exact hc
    have hcmd : (fullCycle st false true none now w).state.motor.current =
        MotorState.search_left := by
      rw [h1, hspec.2.2.2.2.2.2.2, if_pos hcond]
      refine searchCmd_unknown _ ?_ rfl
      show (missStep st).lastDirection = LastDir.forward
      rw [missStep_lastDirection]
      exact hd
    have hp2 : (fullCycle st false true none now w).state.lastLinePos = none := by
      rw [h1, hspec.2.1, missStep_lastLinePos]
      exact hp
    have hd2 : (fullCycle st false true none now w).state.lastDirection =
        LastDir.forward := by
      rw [h1, hspec.2.2.2.1, missStep_lastDirection]
      exact hd
    have hc2 : max_line_lost_count ≤
        (fullCycle st false true none now w).state.lostCounter + 1 := by
      rw [h1, hspec.1, missStep_lostCounter]
      omega
    simp only [cycleCommands]
    rw [hcmd, ih _ hp2 hd2 hc2, List.replicate_succ]

/-- C6: evaluation of the code on the failing input.  From a fully lost
state with the initial (unknown) direction and the counter at the
threshold, forty consecutive search cycles all command search_left and
never search_right, so the claimed 20-cycle alternation does not occur. -/
theorem search_sweep_never_alternates :
    cycleCommands stFullyLost 320 100 40 = List.replicate 40 MotorState.search_left ∧
    MotorState.search_left ≠ MotorState.search_right :=
  ⟨cycleCommands_unknown_search 320 100 40 stFullyLost rfl rfl (by decide), by decide⟩

end LineFollower
